import Mathlib

/-!
Verification of the `databricks-field` notebook collection.

This file gives a shallow embedding of the notebook-defined operations that
the specification talks about and proves (or refutes) the spec's statements
about them:

* `pii_bot` — the pandas UDF of
  `demos/data-management/solacc-llm-pii/04_Data_ETL.py` that calls the model
  serving endpoint (sleep, single POST, raise on non-200, collect the first
  candidate text of every prediction);
* `batch_process_prompts` — the fixed 40-batch sequential loop of the same
  notebook, with its `time.sleep(WAIT_MINS*60)` between iterations;
* `redact_one` / `redact_text` — the per-row redaction loop of the
  `redact_text` pandas UDF;
* the quarantine / cleanse `WHERE` clauses of the same notebook, together
  with Spark SQL's `INSTR`;
* the page-fetch loop of `demos/query_history_api_to_delta.py` and its
  helper `get_boolean_keys`;
* `retriable_execution` of `demos/ml/uc_tools_image_upload.py`, the live
  retry loop around `execute_sql_statement`.

External effects (HTTP requests, `time.sleep`) are modelled as explicit
event traces; the environment's responses are parameters of the embedded
functions.  Machine strings are Lean `String`s; Python's `str.replace` is
modelled exactly, including its empty-pattern convention.

The file is laid out as all definitions first, then all theorems.
-/

namespace DatabricksField

/-! ## Definitions: Python `str.replace` and Spark SQL `INSTR` -/

/-- One left-to-right scan of CPython's `str.replace` for a non-empty pattern
`pat`, replacing non-overlapping occurrences.  `fuel` merely bounds the
recursion; every step consumes at least one character of the scanned list, so
`fuel = s.length` always suffices. -/
def replaceFuel (pat new : List Char) : Nat → List Char → List Char
  | 0, s => s
  | _ + 1, [] => []
  | fuel + 1, c :: t =>
    if pat.isPrefixOf (c :: t) then
      new ++ replaceFuel pat new fuel (t.drop (pat.length - 1))
    else
      c :: replaceFuel pat new fuel t

/-- Python `s.replace(old, new)`: replace every occurrence of `old` in `s` by
`new`.  CPython's convention for the empty pattern inserts `new` before every
character and once at the end. -/
def pyReplace (s old new : String) : String :=
  match old.data with
  | [] => String.mk (new.data ++ s.data.flatMap (fun c => c :: new.data))
  | pat => String.mk (replaceFuel pat new.data s.data.length s.data)

/-- Position scan for `instr`: 1-based position of the first occurrence of
`sub`, `0` when `sub` never occurs. -/
def instrAux (sub : List Char) : List Char → Nat → Nat
  | [], pos => if sub.isPrefixOf ([] : List Char) then pos else 0
  | c :: t, pos => if sub.isPrefixOf (c :: t) then pos else instrAux sub t (pos + 1)

/-- Spark SQL `INSTR(s, sub)`: 1-based position of the first occurrence of
`sub` in `s`, `0` when absent; the empty substring is found at position 1. -/
def instr (s sub : String) : Nat :=
  instrAux sub.data s.data 1

/-! ## Definitions: the `pii_bot` pandas UDF (04_Data_ETL.py) -/

/-- `WAIT_SECONDS = 5` of 04_Data_ETL.py. -/
def WAIT_SECONDS : Nat := 5

/-- `MAX_RETRIES = 3` of 04_Data_ETL.py — referenced only by the
commented-out retry snippet of `pii_bot`. -/
def MAX_RETRIES : Nat := 3

/-- One candidate completion inside a prediction of the serving response
(`prediction["candidates"][i]`). -/
structure Candidate where
  text : String
  deriving DecidableEq, Inhabited

/-- One prediction of the serving response (`response_json["predictions"]`). -/
structure Prediction where
  candidates : List Candidate
  deriving DecidableEq, Inhabited

/-- The HTTP response of the model serving endpoint as `pii_bot` inspects it:
its status code, raw text, and parsed `predictions` array. -/
structure ServingResponse where
  status_code : Nat
  text : String
  predictions : List Prediction
  deriving DecidableEq, Inhabited

/-- Externally visible actions of one `pii_bot` invocation: the
`time.sleep(WAIT_SECONDS)` and the single `requests.post` with its formatted
prompt payload. -/
inductive PiiBotEvent where
  | sleep (seconds : Nat)
  | post (formatted_prompts : List String)
  deriving DecidableEq

/-- Python's `system_prompt.format(instruction=prompt)`: substitute the
placeholder into the template. -/
def formatInstruction (template instruction : String) : String :=
  pyReplace template "\x7binstruction\x7d" instruction

/-- The collection loop at the end of `pii_bot`:
`results.append(prediction["candidates"][0]["text"])` for every prediction,
raising `IndexError` if a prediction has no candidates. -/
def first_candidate_texts : List Prediction → Except String (List String)
  | [] => Except.ok []
  | p :: ps =>
    match p.candidates with
    | [] => Except.error "IndexError: list index out of range"
    | c :: _ =>
      match first_candidate_texts ps with
      | Except.ok rest => Except.ok (c.text :: rest)
      | Except.error e => Except.error e

/-- The `pii_bot` pandas UDF of 04_Data_ETL.py.  It wraps the system prompt
around each input prompt, sleeps `WAIT_SECONDS`, issues one POST to the
serving endpoint, raises on a non-200 status, and otherwise returns the first
candidate text of every prediction.  The result is the event trace of the
invocation together with the returned series (or the raised exception). -/
def pii_bot (system_prompt : String) (prompts : List String)
    (response : ServingResponse) : List PiiBotEvent × Except String (List String) :=
  let formatted_prompts := prompts.map (fun p => formatInstruction system_prompt p)
  ([PiiBotEvent.sleep WAIT_SECONDS, PiiBotEvent.post formatted_prompts],
   if response.status_code ≠ 200 then
     Except.error ("Request failed with status " ++ toString response.status_code
       ++ ", " ++ response.text)
   else
     first_candidate_texts response.predictions)

/-- Does a `pii_bot` event issue an HTTP request? -/
def isPostEvent : PiiBotEvent → Bool
  | PiiBotEvent.post _ => true
  | _ => false

/-! ## Definitions: `retriable_execution` (demos/ml/uc_tools_image_upload.py)

Live, uncommented retry loop: `while num_try <= max_retries`, it executes the
SQL statement; on success it breaks, on an exception it asks `sql_rectifier`
for a corrected statement, increments `num_try`, re-raises once
`num_try == max_retries`, and otherwise tries again.  The function is invoked
at notebook top level with the default `max_retries=3`. -/

/-- Loop body of `retriable_execution`.  `execute stmt` abstracts
`execute_sql_statement(process_sql_str(stmt), ...)` succeeding or raising;
`rectify` abstracts the LLM call `sql_rectifier`.  It returns the list of
statements actually submitted for execution (one per external attempt) and
whether some attempt succeeded.  `fuel = max_retries + 1 - num_try` bounds the
loop, which increments `num_try` on every failed attempt. -/
def retryGo (execute : String → Bool) (rectify : String → String)
    (max_retries : Nat) : String → Nat → Nat → List String × Bool
  | _, _, 0 => ([], false)
  | stmt, num_try, fuel + 1 =>
    if num_try ≤ max_retries then
      if execute stmt then ([stmt], true)
      else if num_try + 1 = max_retries then ([stmt], false)
      else
        let t := retryGo execute rectify max_retries (rectify stmt) (num_try + 1) fuel
        (stmt :: t.1, t.2)
    else ([], false)

/-- `retriable_execution` of uc_tools_image_upload.py, reduced to its
external-call skeleton (statements attempted, success flag). -/
def retriable_execution (execute : String → Bool) (rectify : String → String)
    (sql_statement : String) (max_retries : Nat) : List String × Bool :=
  retryGo execute rectify max_retries sql_statement 0 (max_retries + 1)

/-! ## Definitions: `batch_process_prompts` (04_Data_ETL.py)

`batch_process_prompts` adds `mono_id` (modelled as a field of the input row,
distinctness not needed below), derives `batch_id = mono_id % 40`, processes
the 40 batches sequentially through `pii_bot`, sleeping two minutes between
consecutive batches, and unions the processed batches. -/

/-- `N_PROMPTS_PER_BATCH = 40` of 04_Data_ETL.py. -/
def N_PROMPTS_PER_BATCH : Nat := 40

/-- `WAIT_MINS = 2` of 04_Data_ETL.py. -/
def WAIT_MINS : Nat := 2

/-- A row of `df_with_prompts` entering `batch_process_prompts`, with the
`mono_id` produced by `monotonically_increasing_id()` and the prompt column
that the UDF is applied to. -/
structure PromptRow where
  mono_id : Nat
  message_id : String
  prompt : String
  deriving DecidableEq

/-- Externally visible actions of one `batch_process_prompts` run: processing
batch `i` (one `pii_bot` application) and `time.sleep(WAIT_MINS*60)`. -/
inductive BatchEvent where
  | process (batch_index : Nat)
  | sleep (seconds : Nat)
  deriving DecidableEq

/-- `batch_process_prompts` of 04_Data_ETL.py.  The first component is the
unioned result DataFrame: each processed row keeps its columns, its
`batch_id`, and gains the result column `f prompt` (`f` abstracts the
per-prompt answer of the serving endpoint).  The second component is the trace
of batch processing and sleeping, in program order. -/
def batch_process_prompts (rows : List PromptRow) (f : String → String) :
    List ((PromptRow × Nat) × String) × List BatchEvent :=
  let df_with_batches := rows.map (fun r => (r, r.mono_id % N_PROMPTS_PER_BATCH))
  ((List.range N_PROMPTS_PER_BATCH).flatMap (fun i =>
      (df_with_batches.filter (fun p => decide (p.2 = i))).map
        (fun p => (p, f p.1.prompt))),
   (List.range N_PROMPTS_PER_BATCH).flatMap (fun i =>
      BatchEvent.process i ::
        (if i < N_PROMPTS_PER_BATCH - 1 then [BatchEvent.sleep (WAIT_MINS * 60)] else [])))

/-! ## Definitions: the page-fetch loop (demos/query_history_api_to_delta.py)

`while (has_next_page and pages_fetched < MAX_PAGES_PER_RUN)`: each iteration
increments `pages_fetched`, issues one GET, raises on a non-200 status, reads
`next_page_token` / `has_next_page` from the body, and writes or merges the
page's `res` rows into the Delta `queries` table. -/

/-- `MAX_RESULTS_PER_PAGE = 25000` of query_history_api_to_delta.py (request
parameter only; it does not influence control flow). -/
def MAX_RESULTS_PER_PAGE : Nat := 25000

/-- `MAX_PAGES_PER_RUN = 500` of query_history_api_to_delta.py. -/
def MAX_PAGES_PER_RUN : Nat := 500

/-- One response of the Query History API as the loop inspects it. -/
structure PageResponse where
  status_code : Nat
  text : String
  next_page_token : String
  has_next_page : Bool
  res : List String
  deriving DecidableEq, Inhabited

/-- The page-fetch loop.  `pages k` is the response the API returns to the
`k`-th request (0-based).  `fuel = MAX_PAGES_PER_RUN - pages_fetched` encodes
the loop bound.  Result: the pages written/merged into the `queries` Delta
table in order, the outcome (`Except.error` models the raised exception on a
non-200 status), and the number of loop iterations executed. -/
def fetch_pages (pages : Nat → PageResponse) :
    Nat → Nat → List (List String) × Except String Unit × Nat
  | _, 0 => ([], Except.ok (), 0)
  | k, fuel + 1 =>
    let r := pages k
    if r.status_code ≠ 200 then ([], Except.error r.text, 1)
    else if r.has_next_page then
      let t := fetch_pages pages (k + 1) fuel
      (r.res :: t.1, t.2.1, t.2.2 + 1)
    else ([r.res], Except.ok (), 1)

/-- One notebook run of the query-history fetch loop: start at the first page
with `pages_fetched = 0`. -/
def query_history_run (pages : Nat → PageResponse) :
    List (List String) × Except String Unit × Nat :=
  fetch_pages pages 0 MAX_PAGES_PER_RUN

/-- A constant response supply whose every page is final. -/
def singlePageSupply : Nat → PageResponse :=
  fun _ => ⟨200, "", "", false, ["row0"]⟩

/-- A response supply whose first page succeeds (with a next page announced)
and whose second page fails with a 500 status. -/
def failingSecondPageSupply : Nat → PageResponse :=
  fun k => if k = 0 then ⟨200, "", "tok", true, ["q0"]⟩ else ⟨500, "boom", "", false, []⟩

/-! ## Definitions: quarantine and cleanse (04_Data_ETL.py)

`view_bronze_documents_pii_handled_expanded` has one row per
`pii_type <-> value` pair.  The quarantine `INSERT` selects rows with
`INSTR(unmasked_text, value) <= 0 OR value IN ("", "...")`; the
`bronze_documents_pii_handled_cleansed` table keeps rows with
`INSTR(unmasked_text, value) > 0 AND value NOT IN ("", "...") AND departments
IS NOT NULL` (and then groups them back per message).  SQL three-valued
logic: a `WHERE` keeps a row only when its condition is TRUE, and comparisons
against a NULL `value` are UNKNOWN. -/

/-- A row of the expanded PII view.  `departments` and the exploded `pii_type`
/ `value` fields are nullable (the LLM output they come from may be missing);
`unmasked_text` is the raw source-table text. -/
structure ExpandedPiiRow where
  message_id : String
  unmasked_text : String
  departments : Option (List String)
  pii_type : Option String
  value : Option String
  prompt_profiling : String
  deriving DecidableEq

/-- `WHERE` clause of the quarantine `INSERT`:
`INSTR(unmasked_text, value) <= 0 OR value IN ("", "...")`; with a NULL
`value` both disjuncts are UNKNOWN, so the row is not selected. -/
def quarantineCond (r : ExpandedPiiRow) : Bool :=
  match r.value with
  | none => false
  | some v => decide (instr r.unmasked_text v ≤ 0) || decide (v = "") || decide (v = "...")

/-- `WHERE` clause of the `expanded_filtered` CTE building
`bronze_documents_pii_handled_cleansed`:
`INSTR(unmasked_text, value) > 0 AND value NOT IN ("", "...") AND departments
IS NOT NULL`; with a NULL `value` the conjunction is not TRUE. -/
def cleansedCond (r : ExpandedPiiRow) : Bool :=
  match r.value with
  | none => false
  | some v =>
      decide (0 < instr r.unmasked_text v) &&
      !(decide (v = "") || decide (v = "...")) &&
      r.departments.isSome

/-- The rows the quarantine `INSERT` copies into
`bronze_documents_pii_handled_quarantined` from the expanded view. -/
def quarantined_rows (view : List ExpandedPiiRow) : List ExpandedPiiRow :=
  view.filter quarantineCond

/-- The rows of the expanded view that the cleansed table keeps (before the
per-message `GROUP BY` re-aggregation). -/
def cleansed_kept_rows (view : List ExpandedPiiRow) : List ExpandedPiiRow :=
  view.filter cleansedCond

/-- A concrete expanded-view row whose detected value does occur in the
text. -/
def truePositiveRow : ExpandedPiiRow :=
  ⟨"m1", "my ip is 1.2.3.4 thanks", some ["CYBERSECURITY"], some "IP_ADDRESS",
   some "1.2.3.4", "prompt text"⟩

/-! ## Definitions: the `redact_text` pandas UDF (04_Data_ETL.py) -/

/-- One detected PII item (`{"pii_type": ..., "value": ...}`). -/
structure PiiItem where
  pii_type : String
  value : String
  deriving DecidableEq

/-- The per-row body of the `redact_text` pandas UDF: for each detected PII
item whose `pii_type` is not in the exclusion list, replace every occurrence
of its `value` in the running text by `"[" + pii_type + "]"`, sequentially in
list order. -/
def redact_one (unmasked_text : String) (pii_list : List PiiItem)
    (exclusions : List String) : String :=
  pii_list.foldl
    (fun acc item =>
      if exclusions.contains item.pii_type then acc
      else pyReplace acc item.value ("[" ++ item.pii_type ++ "]"))
    unmasked_text

/-- The `redact_text` pandas UDF over a whole series of
(text, detected PII, exclusions) rows. -/
def redact_text (rows : List (String × List PiiItem × List String)) : List String :=
  rows.map (fun r => redact_one r.1 r.2.1 r.2.2)

/-! ## Definitions: `get_boolean_keys` (query_history_api_to_delta.py) -/

/-- A Python value inside a parsed JSON object, as far as
`get_boolean_keys` inspects it (`type(array[key]) is bool`). -/
inductive PyVal where
  | pybool (b : Bool)
  | pystr (s : String)
  | pynum (n : Int)
  | pynull
  deriving DecidableEq

/-- `type(v) is bool` of Python. -/
def isBoolVal : PyVal → Bool
  | PyVal.pybool _ => true
  | _ => false

/-- `get_boolean_keys` of query_history_api_to_delta.py: collect, over a list
of JSON objects, every key bound to a boolean.  A JSON object is modelled as
an association list in key order. -/
def get_boolean_keys (arrays : List (List (String × PyVal))) : List String :=
  arrays.flatMap (fun array =>
    (array.filter (fun kv => isBoolVal kv.2)).map (fun kv => kv.1))

/-! ## Theorems

Sanity checks of the string primitives against known Python / Spark SQL
behaviour, then the claims. -/

example : pyReplace "hello" "l" "L" = "heLLo" := by decide

example : pyReplace "abc" "" "X" = "XaXbXcX" := by decide

example : instr "abcabc" "bc" = 2 := by decide

example : instr "abc" "z" = 0 := by decide

example : instr "abc" "" = 1 := by decide

/-- Helper: when every prediction has at least one candidate, the collection
loop succeeds with exactly the first candidate texts. -/
theorem first_candidate_texts_ok (ps : List Prediction)
    (h : ∀ p ∈ ps, p.candidates ≠ []) :
    first_candidate_texts ps =
      Except.ok (ps.map (fun p => (p.candidates.headD default).text)) := by
  induction ps with
  | nil => rfl
  | cons p ps ih =>
    have hp := h p (List.mem_cons_self p ps)
    match hc : p.candidates with
    | [] => exact absurd hc hp
    | c :: cs =>
      have hrest := ih (fun q hq => h q (List.mem_cons_of_mem _ hq))
      simp [first_candidate_texts, hc, hrest]

/-- Claim C2: for every invocation of the `pii_bot` pandas UDF, if the serving
endpoint's HTTP status code is not 200 the UDF raises an exception and returns
no result series; if the status code is 200 it returns a series holding, for
each prediction of the response, the text of that prediction's first
candidate. -/
theorem pii_bot_status_behaviour (system_prompt : String) (prompts : List String)
    (r : ServingResponse) :
    (r.status_code ≠ 200 →
      ∃ msg, (pii_bot system_prompt prompts r).2 = Except.error msg) ∧
    (r.status_code = 200 → (∀ p ∈ r.predictions, p.candidates ≠ []) →
      (pii_bot system_prompt prompts r).2 =
        Except.ok (r.predictions.map (fun p => (p.candidates.headD default).text))) := by
  constructor
  · intro h
    refine ⟨"Request failed with status " ++ toString r.status_code ++ ", " ++ r.text, ?_⟩
    simp [pii_bot, h]
  · intro h200 hne
    simp [pii_bot, h200, first_candidate_texts_ok r.predictions hne]

/-- Witness for C2: a 500 response raises, and a 200 response with one
prediction returns its first candidate's text. -/
theorem pii_bot_status_behaviour_witness :
    (∃ msg, (pii_bot "sys" ["p"] ⟨500, "boom", []⟩).2 = Except.error msg) ∧
    (pii_bot "sys" ["p"] ⟨200, "", [⟨[⟨"out"⟩, ⟨"alt"⟩]⟩]⟩).2 = Except.ok ["out"] := by
  constructor
  · exact (pii_bot_status_behaviour "sys" ["p"] ⟨500, "boom", []⟩).1 (by decide)
  · have h := (pii_bot_status_behaviour "sys" ["p"] ⟨200, "", [⟨[⟨"out"⟩, ⟨"alt"⟩]⟩]⟩).2
      rfl (by decide)
    simpa using h

/-- Claim C8: every HTTP POST issued by `pii_bot` is preceded, inside the same
invocation, by a sleep of exactly `WAIT_SECONDS = 5` seconds: the UDF never
posts without the fixed delay right before it. -/
theorem pii_bot_post_preceded_by_sleep (system_prompt : String)
    (prompts : List String) (r : ServingResponse) :
    WAIT_SECONDS = 5 ∧
    (∀ i pl, (pii_bot system_prompt prompts r).1.get? i = some (PiiBotEvent.post pl) →
      i ≠ 0 ∧ (pii_bot system_prompt prompts r).1.get? (i - 1) =
        some (PiiBotEvent.sleep WAIT_SECONDS)) := by
  refine ⟨rfl, ?_⟩
  intro i pl h
  match i with
  | 0 => simp [pii_bot] at h
  | 1 => exact ⟨by decide, rfl⟩
  | n + 2 => simp [pii_bot] at h

/-- Witness for C8: in a concrete invocation the POST sits at index 1 and the
five-second sleep at index 0. -/
theorem pii_bot_post_preceded_by_sleep_witness :
    (1 : Nat) ≠ 0 ∧ (pii_bot "sys" ["p"] ⟨200, "", []⟩).1.get? 0 =
      some (PiiBotEvent.sleep WAIT_SECONDS) :=
  (pii_bot_post_preceded_by_sleep "sys" ["p"] ⟨200, "", []⟩).2 1 ["sys"] (by decide)

/-- Claim C1 (amended): the `pii_bot` UDF never retries a failed call — each
invocation issues exactly one HTTP POST, whatever the endpoint answers; its
retry snippet is commented out.  (Live retry code elsewhere in the repository
is exhibited by the counterexample about `retriable_execution`.) -/
theorem pii_bot_posts_exactly_once (system_prompt : String) (prompts : List String)
    (r : ServingResponse) :
    (pii_bot system_prompt prompts r).1.countP isPostEvent = 1 := by
  rfl

/-- Claim C1 counterexample: with the notebook's default `max_retries = 3`, a
failed SQL execution is automatically retried — a single invocation of
`retriable_execution` submits two external execution attempts, the second one
after the first failed.  So retry logic does not exist only in commented-out
snippets, and an operation can issue an external request more than once per
invocation. -/
theorem retriable_execution_retries_after_failure :
    (retriable_execution (fun s => s == "SELECT 1") (fun _ => "SELECT 1")
        "SELECT ERR" 3).1 = ["SELECT ERR", "SELECT 1"] ∧
    (retriable_execution (fun s => s == "SELECT 1") (fun _ => "SELECT 1")
        "SELECT ERR" 3).1.length = 2 := by
  constructor <;> rfl

/-- Claim C3: the batching logic is a fixed-size sequential loop with a fixed
delay — the trace is independent of the input DataFrame, holds exactly 40
processing steps, sleeps exactly 120 seconds between consecutive steps
(39 sleeps, every sleep 120 s), and does not sleep after the last step. -/
theorem batch_process_prompts_fixed_trace (rows rows' : List PromptRow)
    (f f' : String → String) :
    (batch_process_prompts rows f).2 = (batch_process_prompts rows' f').2 ∧
    (batch_process_prompts rows f).2 =
      (List.range 40).flatMap (fun i =>
        BatchEvent.process i :: (if i < 39 then [BatchEvent.sleep 120] else [])) ∧
    (batch_process_prompts rows f).2.countP
      (fun e => match e with | BatchEvent.process _ => true | _ => false) = 40 ∧
    (batch_process_prompts rows f).2.countP
      (fun e => match e with | BatchEvent.sleep _ => true | _ => false) = 39 ∧
    (batch_process_prompts rows f).2.all
      (fun e => match e with | BatchEvent.sleep s => s == 120 | _ => true) = true ∧
    (batch_process_prompts rows f).2.getLast? = some (BatchEvent.process 39) := by
  have htr : (batch_process_prompts rows f).2 =
      (List.range 40).flatMap (fun i =>
        BatchEvent.process i :: (if i < 39 then [BatchEvent.sleep 120] else [])) := rfl
  have htr' : (batch_process_prompts rows' f').2 =
      (List.range 40).flatMap (fun i =>
        BatchEvent.process i :: (if i < 39 then [BatchEvent.sleep 120] else [])) := rfl
  refine ⟨htr.trans htr'.symm, htr, ?_, ?_, ?_, ?_⟩ <;> rw [htr] <;> decide

/-- Two disjoint filters of the same list, appended, are a permutation of the
filter by the disjunction. -/
theorem filter_or_perm (l : List α) (p q : α → Bool)
    (h : ∀ a, ¬(p a = true ∧ q a = true)) :
    (l.filter p ++ l.filter q).Perm (l.filter (fun a => p a || q a)) := by
  induction l with
  | nil => simp
  | cons a l ih =>
    by_cases hp : p a = true
    · have hq : q a = false := by
        cases hqa : q a
        · rfl
        · exact absurd ⟨hp, hqa⟩ (h a)
      simpa [List.filter_cons, hp, hq] using ih.cons a
    · have hp' : p a = false := by simpa using hp
      by_cases hq : q a = true
      · simp only [List.filter_cons, hp', hq, Bool.false_or, if_true, if_false]
        exact List.perm_middle.trans (ih.cons a)
      · have hq' : q a = false := by simpa using hq
        simpa [List.filter_cons, hp', hq'] using ih

/-- Partitioning a list by a `Nat` key: concatenating, for `i < n`, the rows
whose key equals `i` permutes the rows whose key is below `n`. -/
theorem range_flatMap_filter_perm (l : List α) (key : α → Nat) (n : Nat) :
    ((List.range n).flatMap (fun i => l.filter (fun a => decide (key a = i)))).Perm
      (l.filter (fun a => decide (key a < n))) := by
  induction n with
  | zero => simp
  | succ n ih =>
    rw [List.range_succ, List.flatMap_append]
    simp only [List.flatMap_cons, List.flatMap_nil, List.append_nil]
    have hstep := filter_or_perm l (fun a => decide (key a < n))
      (fun a => decide (key a = n)) (by
        intro a ⟨h1, h2⟩
        rw [decide_eq_true_eq] at h1 h2
        omega)
    have hcongr : l.filter (fun a => decide (key a < n) || decide (key a = n)) =
        l.filter (fun a => decide (key a < n + 1)) := by
      refine List.filter_congr (fun a _ => ?_)
      by_cases h1 : key a < n
      · simp [h1, Nat.lt_succ_of_lt h1]
      · by_cases h2 : key a = n
        · simp [h1, h2]
        · have h3 : ¬(key a < n + 1) := by omega
          simp [h1, h2, h3]
    exact (ih.append (List.Perm.refl _)).trans (hstep.trans (hcongr ▸ List.Perm.refl _))

/-- Claim C5: `batch_process_prompts` partitions its input without loss or
duplication — every row gets `batch_id = mono_id % 40`, and the union of the
processed batches is a permutation of the input rows, each extended with its
`batch_id` and the new result column. -/
theorem batch_process_prompts_lossless (rows : List PromptRow) (f : String → String) :
    ((batch_process_prompts rows f).1).Perm
      (rows.map (fun r => ((r, r.mono_id % 40), f r.prompt))) := by
  have h1 : (batch_process_prompts rows f).1 =
      (List.range 40).flatMap (fun i =>
        ((rows.map (fun r => (r, r.mono_id % 40))).filter
          (fun p => decide (p.2 = i))).map (fun p => (p, f p.1.prompt))) := rfl
  rw [h1]
  have h2 : (List.range 40).flatMap (fun i =>
        ((rows.map (fun r => (r, r.mono_id % 40))).filter
          (fun p => decide (p.2 = i))).map (fun p => (p, f p.1.prompt))) =
      List.map (fun p => (p, f p.1.prompt))
        ((List.range 40).flatMap (fun i =>
          (rows.map (fun r => (r, r.mono_id % 40))).filter (fun p => decide (p.2 = i)))) := by
    rw [List.map_flatMap]
  rw [h2]
  have hperm := range_flatMap_filter_perm
    (rows.map (fun r => (r, r.mono_id % 40))) (fun p => p.2) 40
  have hself : (rows.map (fun r => (r, r.mono_id % 40))).filter
      (fun p => decide (p.2 < 40)) = rows.map (fun r => (r, r.mono_id % 40)) := by
    refine List.filter_eq_self.mpr (fun p hp => ?_)
    rcases List.mem_map.mp hp with ⟨r, _, rfl⟩
    simp only [decide_eq_true_eq]
    exact Nat.mod_lt _ (by omega)
  rw [hself] at hperm
  have := hperm.map (fun p => (p, f p.1.prompt))
  simpa [List.map_map, Function.comp] using this

/-- Helper: the loop executes at most `fuel` iterations. -/
theorem fetch_pages_iterations_le (pages : Nat → PageResponse) :
    ∀ fuel k, (fetch_pages pages k fuel).2.2 ≤ fuel := by
  intro fuel
  induction fuel with
  | zero => intro k; simp [fetch_pages]
  | succ fuel ih =>
    intro k
    simp only [fetch_pages]
    split
    · simp
    · split
      · simpa using Nat.succ_le_succ (ih (k + 1))
      · simp

/-- Helper: the loop stops with the iteration that reports
`has_next_page = false`. -/
theorem fetch_pages_stops_on_no_next (pages : Nat → PageResponse) :
    ∀ m fuel k, (pages (k + m)).has_next_page = false →
      (fetch_pages pages k fuel).2.2 ≤ m + 1 := by
  intro m
  induction m with
  | zero =>
    intro fuel k hlast
    rw [Nat.add_zero] at hlast
    match fuel with
    | 0 => simp [fetch_pages]
    | fuel + 1 =>
      by_cases hs : (pages k).status_code ≠ 200
      · simp [fetch_pages, hs]
      · simp [fetch_pages, hs, hlast]
  | succ m ih =>
    intro fuel k hlast
    match fuel with
    | 0 => simp [fetch_pages]
    | fuel + 1 =>
      by_cases hs : (pages k).status_code ≠ 200
      · have : (fetch_pages pages k (fuel + 1)).2.2 = 1 := by simp [fetch_pages, hs]
        omega
      · by_cases hn : (pages k).has_next_page
        · have harg : k + 1 + m = k + (m + 1) := by omega
          have hle := ih fuel (k + 1) (by rw [harg]; exact hlast)
          have hred : (fetch_pages pages k (fuel + 1)).2.2 =
              (fetch_pages pages (k + 1) fuel).2.2 + 1 := by
            simp [fetch_pages, hs, hn]
          omega
        · have hn' : (pages k).has_next_page = false := by simpa using hn
          have : (fetch_pages pages k (fuel + 1)).2.2 = 1 := by
            simp [fetch_pages, hs, hn']
          omega

/-- Claim C7: the page-fetch loop terminates for every sequence of API
responses — it executes at most `MAX_PAGES_PER_RUN = 500` iterations, and
stops no later than right after a response reports `has_next_page = false`. -/
theorem query_history_run_terminates (pages : Nat → PageResponse) (m : Nat) :
    (query_history_run pages).2.2 ≤ 500 ∧
    ((pages m).has_next_page = false → (query_history_run pages).2.2 ≤ m + 1) := by
  constructor
  · exact fetch_pages_iterations_le pages MAX_PAGES_PER_RUN 0
  · intro h
    exact fetch_pages_stops_on_no_next pages m MAX_PAGES_PER_RUN 0
      (by rw [Nat.zero_add]; exact h)

/-- Witness for C7: on a supply whose first response already has
`has_next_page = false`, the run performs at most one iteration. -/
theorem query_history_run_terminates_witness :
    (query_history_run singlePageSupply).2.2 ≤ 0 + 1 :=
  (query_history_run_terminates singlePageSupply 0).2 rfl

/-- Helper: the `j`-th written page is exactly the `res` rows of the `j`-th
response, which had status 200; and on an error the failing page — the one
right after the written ones — had a non-200 status and was not written. -/
theorem fetch_pages_writes_spec (pages : Nat → PageResponse) :
    ∀ fuel k,
      (∀ j pg, (fetch_pages pages k fuel).1.get? j = some pg →
        pg = (pages (k + j)).res ∧ (pages (k + j)).status_code = 200) ∧
      (∀ e, (fetch_pages pages k fuel).2.1 = Except.error e →
        (pages (k + (fetch_pages pages k fuel).1.length)).status_code ≠ 200) := by
  intro fuel
  induction fuel with
  | zero =>
    intro k
    constructor
    · intro j pg hj
      simp [fetch_pages] at hj
    · intro e he
      simp [fetch_pages] at he
  | succ fuel ih =>
    intro k
    by_cases hs : (pages k).status_code ≠ 200
    · have hred : fetch_pages pages k (fuel + 1) = ([], Except.error (pages k).text, 1) := by
        simp [fetch_pages, hs]
      rw [hred]
      constructor
      · intro j pg hj
        simp at hj
      · intro e _
        simpa using hs
    · have hs200 : (pages k).status_code = 200 := by simpa using hs
      by_cases hn : (pages k).has_next_page
      · have hred : fetch_pages pages k (fuel + 1) =
            ((pages k).res :: (fetch_pages pages (k + 1) fuel).1,
             (fetch_pages pages (k + 1) fuel).2.1,
             (fetch_pages pages (k + 1) fuel).2.2 + 1) := by
          simp [fetch_pages, hs, hn]
        obtain ⟨ih1, ih2⟩ := ih (k + 1)
        rw [hred]
        constructor
        · intro j pg hj
          match j with
          | 0 =>
            rw [List.get?_cons_zero] at hj
            injection hj with hj
            exact ⟨hj.symm, hs200⟩
          | j + 1 =>
            rw [List.get?_cons_succ] at hj
            have hj' := ih1 j pg hj
            have harg : k + 1 + j = k + (j + 1) := by omega
            rwa [harg] at hj'
        · intro e he
          have hih := ih2 e he
          have harg : k + 1 + (fetch_pages pages (k + 1) fuel).1.length =
              k + ((fetch_pages pages (k + 1) fuel).1.length + 1) := by omega
          rw [harg] at hih
          simpa using hih
      · have hn' : (pages k).has_next_page = false := by simpa using hn
        have hred : fetch_pages pages k (fuel + 1) =
            ([(pages k).res], Except.ok (), 1) := by
          simp [fetch_pages, hs, hn']
        rw [hred]
        constructor
        · intro j pg hj
          match j with
          | 0 =>
            rw [List.get?_cons_zero] at hj
            injection hj with hj
            exact ⟨hj.symm, hs200⟩
          | j + 1 => simp at hj
        · intro e he
          cases he

/-- Claim C6: each page of query-history results is written or merged into the
Delta `queries` table only after its API response had status 200 (the `j`-th
written page is exactly the rows of the `j`-th response, which had status
200); a non-200 response raises before any write for that page, so the table
reflects exactly the fully processed earlier pages. -/
theorem query_history_page_atomicity (pages : Nat → PageResponse) :
    (∀ j pg, (query_history_run pages).1.get? j = some pg →
      pg = (pages j).res ∧ (pages j).status_code = 200) ∧
    (∀ e, (query_history_run pages).2.1 = Except.error e →
      (pages ((query_history_run pages).1.length)).status_code ≠ 200) := by
  have h := fetch_pages_writes_spec pages MAX_PAGES_PER_RUN 0
  constructor
  · intro j pg hj
    have hres := h.1 j pg hj
    rwa [Nat.zero_add] at hres
  · intro e he
    have hres := h.2 e he
    rwa [Nat.zero_add] at hres

/-- Witness for C6: on `failingSecondPageSupply` exactly the first page is
written, its response had status 200, and the failing page right after the
written ones had a non-200 status. -/
theorem query_history_page_atomicity_witness :
    (["q0"] = (failingSecondPageSupply 0).res ∧
      (failingSecondPageSupply 0).status_code = 200) ∧
    (failingSecondPageSupply ((query_history_run failingSecondPageSupply).1.length)).status_code ≠ 200 :=
  ⟨(query_history_page_atomicity failingSecondPageSupply).1 0 ["q0"] (by rfl),
   (query_history_page_atomicity failingSecondPageSupply).2 "boom" (by rfl)⟩

/-- Claim C9: for every row of the expanded PII view with non-null `value` and
non-null `departments`, quarantining and cleansing are complementary: the row
is quarantined iff `INSTR(unmasked_text, value) <= 0` or the value is `""` or
`"..."`, it is kept in the cleansed table iff the opposite holds, and it lands
in exactly one of the two. -/
theorem quarantine_cleanse_complementary (view : List ExpandedPiiRow)
    (r : ExpandedPiiRow) (v : String) (ds : List String)
    (hmem : r ∈ view) (hv : r.value = some v) (hd : r.departments = some ds) :
    (r ∈ quarantined_rows view ↔ (instr r.unmasked_text v = 0 ∨ v = "" ∨ v = "...")) ∧
    (r ∈ cleansed_kept_rows view ↔ (0 < instr r.unmasked_text v ∧ v ≠ "" ∧ v ≠ "...")) ∧
    (r ∈ quarantined_rows view ↔ r ∉ cleansed_kept_rows view) := by
  have hq : r ∈ quarantined_rows view ↔
      (instr r.unmasked_text v = 0 ∨ v = "" ∨ v = "...") := by
    rw [quarantined_rows, List.mem_filter]
    rw [quarantineCond, hv]
    simp [hmem, Nat.le_zero, or_assoc]
  have hc : r ∈ cleansed_kept_rows view ↔
      (0 < instr r.unmasked_text v ∧ v ≠ "" ∧ v ≠ "...") := by
    rw [cleansed_kept_rows, List.mem_filter]
    rw [cleansedCond, hv, hd]
    simp [hmem, and_assoc]
  refine ⟨hq, hc, ?_⟩
  rw [hq, hc]
  constructor
  · rintro (h0 | he | hdots) ⟨hpos, hne, hnd⟩
    · omega
    · exact hne he
    · exact hnd hdots
  · intro hnot
    by_cases h0 : instr r.unmasked_text v = 0
    · exact Or.inl h0
    · by_cases he : v = ""
      · exact Or.inr (Or.inl he)
      · by_cases hdots : v = "..."
        · exact Or.inr (Or.inr hdots)
        · exact absurd ⟨by omega, he, hdots⟩ hnot

/-- Witness for C9: the concrete true-positive row is kept in the cleansed
table and is not quarantined. -/
theorem quarantine_cleanse_complementary_witness :
    truePositiveRow ∈ cleansed_kept_rows [truePositiveRow] ∧
    truePositiveRow ∉ quarantined_rows [truePositiveRow] := by
  have h := quarantine_cleanse_complementary [truePositiveRow] truePositiveRow
    "1.2.3.4" ["CYBERSECURITY"] (List.mem_singleton.mpr rfl) rfl rfl
  have hin : truePositiveRow ∈ cleansed_kept_rows [truePositiveRow] :=
    h.2.1.mpr (by refine ⟨by decide, by decide, by decide⟩)
  exact ⟨hin, fun hqr => (h.2.2.mp hqr) hin⟩

/-- Claim C10: if a row's detected-PII list is empty or every `pii_type` in it
is excluded, `redact_one` returns the input text unchanged; otherwise the
result is exactly the sequential replacement, over the non-excluded items
only, of each occurrence of the item's value by its `pii_type` in square
brackets — excluded items contribute no modification. -/
theorem redact_one_frame (unmasked_text : String) (pii_list : List PiiItem)
    (exclusions : List String) :
    ((∀ item ∈ pii_list, exclusions.contains item.pii_type = true) →
      redact_one unmasked_text pii_list exclusions = unmasked_text) ∧
    redact_one unmasked_text pii_list exclusions =
      (pii_list.filter (fun item => !(exclusions.contains item.pii_type))).foldl
        (fun acc item => pyReplace acc item.value ("[" ++ item.pii_type ++ "]"))
        unmasked_text := by
  constructor
  · induction pii_list with
    | nil => intro h; rfl
    | cons item rest ih =>
      intro h
      have hi : item.pii_type ∈ exclusions := by
        simpa using h item (List.mem_cons_self _ _)
      have hstep : redact_one unmasked_text (item :: rest) exclusions =
          redact_one unmasked_text rest exclusions := by
        simp [redact_one, hi]
      rw [hstep]
      exact ih (fun q hq => h q (List.mem_cons_of_mem _ hq))
  · induction pii_list generalizing unmasked_text with
    | nil => rfl
    | cons item rest ih =>
      by_cases hc : exclusions.contains item.pii_type
      · have him : item.pii_type ∈ exclusions := by simpa using hc
        have hstep : redact_one unmasked_text (item :: rest) exclusions =
            redact_one unmasked_text rest exclusions := by
          simp [redact_one, him]
        rw [hstep, List.filter_cons, if_neg (by simpa using him)]
        exact ih unmasked_text
      · have hnm : item.pii_type ∉ exclusions := by simpa using hc
        have hstep : redact_one unmasked_text (item :: rest) exclusions =
            redact_one (pyReplace unmasked_text item.value ("[" ++ item.pii_type ++ "]"))
              rest exclusions := by
          simp [redact_one, hnm]
        rw [hstep, List.filter_cons, if_pos (by simpa using hnm), List.foldl_cons]
        exact ih (pyReplace unmasked_text item.value ("[" ++ item.pii_type ++ "]"))

/-- Witness for C10: with every detected type excluded, the text comes back
unchanged. -/
theorem redact_one_frame_witness :
    redact_one "Hi John from ACME" [⟨"NAME", "John"⟩] ["NAME"] = "Hi John from ACME" :=
  (redact_one_frame "Hi John from ACME" [⟨"NAME", "John"⟩] ["NAME"]).1 (by decide)

/-- Claim C4 counterexample: `get_boolean_keys`, defined in a notebook, is a
pure, deterministic function of its argument alone — its output on a concrete
input is machine-checked here with no Spark, MLflow, or HTTP involved. -/
theorem get_boolean_keys_unit_test :
    get_boolean_keys
      [[("enable_photon", PyVal.pybool true), ("name", PyVal.pystr "ep")],
       [("size", PyVal.pynum 2), ("auto_stop", PyVal.pybool false)]] =
      ["enable_photon", "auto_stop"] := by decide

/-- Claim C4 (amended): the repository does contain unit-testable pure logic —
`get_boolean_keys` is characterised extensionally: it returns exactly the keys
that some response object binds to a boolean. -/
theorem get_boolean_keys_spec (arrays : List (List (String × PyVal))) (k : String) :
    k ∈ get_boolean_keys arrays ↔
      ∃ array ∈ arrays, ∃ b : Bool, (k, PyVal.pybool b) ∈ array := by
  rw [get_boolean_keys]
  simp only [List.mem_flatMap, List.mem_map, List.mem_filter]
  constructor
  · rintro ⟨array, harr, kv, ⟨hkv, hbool⟩, hk⟩
    match kv, hbool with
    | (k', PyVal.pybool b), _ =>
      cases hk
      exact ⟨array, harr, b, hkv⟩
  · rintro ⟨array, harr, b, hkv⟩
    exact ⟨array, harr, (k, PyVal.pybool b), ⟨hkv, rfl⟩, rfl⟩

end DatabricksField
